import Mathlib

/-!
Verification of the orchestration contract of `helpitnotsuck.py`, a small
tool that sequences lint / docstring-prompt / dead-code-strip / import-sort /
format passes over one file or a directory tree.

The embedding models the observable effects of the script explicitly:
the filesystem is a partial map from paths to contents, the interactive
input of the operator is a queue of lines, and the state additionally records
the paths read, the paths written, the console output and a trace of
completed pipeline steps.  The four external tools (pylint, autoflake,
isort, black) are abstract parameters collected in an `Env`; each may
crash (modelled as `none` / `BlackResult.crash`), and black additionally
has the distinguished "invalid input" outcome that the script catches.
-/

/-- Labels for the six per-file pipeline steps, recorded in order of
completion. -/
inductive Step where
  | preLint
  | docstringCheck
  | strip
  | sort
  | fmt
  | postLint
deriving DecidableEq

/-- The observable state of one run: filesystem, pending operator input,
and the traces of reads, writes, console output and completed steps.
`prompts` counts how many times the interactive prompt consumed a line. -/
structure PState where
  fs : String → Option String
  stdin : List String
  reads : List String
  writes : List String
  output : List String
  prompts : Nat
  steps : List Step

/-- Result of running a piece of the script: normal return, an uncaught
exception (carrying the state at the moment of the raise — nothing is
rolled back), or blocking forever on operator input. -/
inductive Res (α : Type) where
  | ok (st : PState) (a : α)
  | exn (st : PState)
  | blocked (st : PState)

/-- The state carried by a result, whatever the outcome. -/
def Res.state {α : Type} : Res α → PState
  | .ok st _ => st
  | .exn st => st
  | .blocked st => st

/-- Whether the run is stuck waiting for operator input. -/
def Res.isBlocked {α : Type} : Res α → Bool
  | .blocked _ => true
  | _ => false

/-- Whether the run returned normally. -/
def Res.isOk {α : Type} : Res α → Bool
  | .ok _ _ => true
  | _ => false

/-- Whether the run ended in an uncaught exception. -/
def Res.isExn {α : Type} : Res α → Bool
  | .exn _ => true
  | _ => false

/-- Outcome of `black.format_file_contents`: a formatted string, the
`black.InvalidInput` condition (the only one the script catches), or any
other exception. -/
inductive BlackResult where
  | ok (s : String)
  | invalidInput
  | crash
deriving DecidableEq

/-- The external tools, abstracted.  `none` / `BlackResult.crash` model an
exception escaping the tool.  `walk` models `os.walk`: for a directory it
yields the `(root, files)` pairs in traversal order; `isdir` models
`os.path.isdir`. -/
structure Env where
  lintRun : String → Option String
  fix_code : String → Option String
  isortFile : String → Option String
  formatFileContents : String → BlackResult
  isdir : String → Bool
  walk : String → List (String × List String)

/-- Append a printed line to the console trace. -/
def printLine (st : PState) (line : String) : PState :=
  { st with output := st.output ++ [line] }

/-- Overwrite a file on disk, recording the write. -/
def fsWrite (st : PState) (fp c : String) : PState :=
  { st with fs := fun q => if q = fp then some c else st.fs q,
            writes := st.writes ++ [fp] }

/-- Record the completion of a pipeline step. -/
def mark (st : PState) (s : Step) : PState :=
  { st with steps := st.steps ++ [s] }

/-- Python `str.lstrip()` with no argument: drop leading whitespace. -/
def pyLstrip (s : String) : String :=
  ⟨s.data.dropWhile Char.isWhitespace⟩

/-- Python `str.strip()` with no argument: drop whitespace at both ends. -/
def pyStrip (s : String) : String :=
  ⟨((s.data.dropWhile Char.isWhitespace).reverse.dropWhile
      Char.isWhitespace).reverse⟩

/-- Python `str.startswith(p)`. -/
def pyStartswith (s p : String) : Bool :=
  p.data.isPrefixOf s.data

/-- Python `str.endswith(p)`. -/
def pyEndswith (s p : String) : Bool :=
  p.data.isSuffixOf s.data

/-- The triple-double-quote docstring delimiter the script tests for. -/
def tq : String := "\"\"\""

/-- The triple-single-quote delimiter, which the script does NOT test
for (written with hex escapes for the quote character). -/
def sq3 : String := "\x27\x27\x27"

/-- Embeds `run_pylint` (src lines 19-24): pylint reads the file and a
textual report is captured; the report is a function of the content.  A
crash of the linter propagates. -/
def run_pylint (env : Env) (st : PState) (file_path : String) : Res String :=
  let st1 := { st with reads := st.reads ++ [file_path] }
  match env.lintRun ((st1.fs file_path).getD "") with
  | some report => .ok st1 report
  | none => .exn st1

/-- Embeds `prompt_for_docstring` (src lines 27-36): read the file; if the
left-stripped content does not start with `\"\"\"`, print the prompt, block
on `input()`, strip the line, and rewrite the file with the docstring block
prepended. -/
def prompt_for_docstring (st : PState) (file_path : String) : Res Unit :=
  let st1 := { st with reads := st.reads ++ [file_path] }
  match st1.fs file_path with
  | none => .exn st1
  | some content =>
    if pyStartswith (pyLstrip content) tq then
      .ok st1 ()
    else
      let st2 := printLine st1 ("No docstring found in " ++ file_path ++
        ". Please enter a docstring:")
      match st2.stdin with
      | [] => .blocked st2
      | line :: rest =>
        let docstring := pyStrip line
        let st3 := { st2 with stdin := rest, prompts := st2.prompts + 1 }
        .ok (fsWrite st3 file_path
          (tq ++ "\n" ++ docstring ++ "\n" ++ tq ++ "\n\n" ++ content)) ()

/-- Embeds `isort.file(file_path)` (src line 63): the sorter rewrites the
file in place; a crash propagates. -/
def isort_file (env : Env) (st : PState) (file_path : String) : Res Unit :=
  let st1 := { st with reads := st.reads ++ [file_path] }
  match st1.fs file_path with
  | none => .exn st1
  | some content =>
    match env.isortFile content with
    | none => .exn st1
    | some sorted => .ok (fsWrite st1 file_path sorted) ()

/-- The tail of `process_file` (src lines 78-81): print the final pylint
report. -/
def finalLint (env : Env) (st : PState) (file_path : String) : Res Unit :=
  let st := printLine st "Running final pylint..."
  match run_pylint env st file_path with
  | .exn s => .exn s
  | .blocked s => .blocked s
  | .ok st pylint_output =>
    .ok (mark (printLine st pylint_output) Step.postLint) ()

/-- The autoflake segment of `process_file` (src lines 51-59): read the
file, run `autoflake.fix_code` with both removal options, write the result
back.  A crash of autoflake propagates. -/
def autoflakeStep (env : Env) (st : PState) (file_path : String) : Res Unit :=
  let st := printLine st "Applying autoflake..."
  let st := { st with reads := st.reads ++ [file_path] }
  match st.fs file_path with
  | none => .exn st
  | some content =>
    match env.fix_code content with
    | none => .exn st
    | some fixed => .ok (mark (fsWrite st file_path fixed) Step.strip) ()

/-- The black segment of `process_file` (src lines 65-76): read the file
(UTF-8), run `black.format_file_contents`, write the result back; the
`black.InvalidInput` condition is caught and only a warning is printed,
while any other exception propagates. -/
def blackStep (env : Env) (st : PState) (file_path : String) : Res Unit :=
  let st := printLine st "Applying black..."
  let st := { st with reads := st.reads ++ [file_path] }
  match st.fs file_path with
  | none => .exn st
  | some content =>
    match env.formatFileContents content with
    | BlackResult.crash => .exn st
    | BlackResult.invalidInput =>
      .ok (mark (printLine st
        ("Warning: Black could not format " ++ file_path)) Step.fmt) ()
    | BlackResult.ok formatted =>
      .ok (mark (fsWrite st file_path formatted) Step.fmt) ()

/-- The tail of `process_file` after the docstring check (src lines 51-81):
autoflake, isort, black, final pylint, in order, each stopping the chain on
an uncaught exception. -/
def afterDocstring (env : Env) (st : PState) (file_path : String) : Res Unit :=
  match autoflakeStep env st file_path with
  | .exn s => .exn s
  | .blocked s => .blocked s
  | .ok st _ =>
  let st := printLine st "Applying isort..."
  match isort_file env st file_path with
  | .exn s => .exn s
  | .blocked s => .blocked s
  | .ok st _ =>
  let st := mark st Step.sort
  match blackStep env st file_path with
  | .exn s => .exn s
  | .blocked s => .blocked s
  | .ok st _ =>
  finalLint env st file_path

/-- Embeds `process_file` (src lines 39-81): pre-lint, docstring prompt,
autoflake (read, transform, write), isort (in place), black (read,
format, write) with `black.InvalidInput` caught locally, post-lint. -/
def process_file (env : Env) (st : PState) (file_path : String) : Res Unit :=
  let st := printLine st ("Processing " ++ file_path)
  let st := printLine st "Running initial pylint..."
  match run_pylint env st file_path with
  | .exn s => .exn s
  | .blocked s => .blocked s
  | .ok st pylint_output =>
  let st := mark (printLine st pylint_output) Step.preLint
  match prompt_for_docstring st file_path with
  | .exn s => .exn s
  | .blocked s => .blocked s
  | .ok st _ =>
  afterDocstring env (mark st Step.docstringCheck) file_path

/-- Process a list of target files in order, stopping at the first
uncaught exception or block. -/
def processList (env : Env) : PState → List String → Res Unit
  | st, [] => .ok st ()
  | st, fp :: rest =>
    match process_file env st fp with
    | .ok st1 _ => processList env st1 rest
    | .exn s => .exn s
    | .blocked s => .blocked s

/-- The files selected by the walk of `process_directory` (src lines 86-89):
for each `(root, files)` pair, the files ending in `.py`, joined to the
root. -/
def pyFiles (walkResult : List (String × List String)) : List String :=
  walkResult.flatMap
    (fun rf => (rf.2.filter (fun f => pyEndswith f ".py")).map
      (fun f => rf.1 ++ "/" ++ f))

/-- Embeds `process_directory` (src lines 84-89). -/
def process_directory (env : Env) (st : PState) (directory : String) :
    Res Unit :=
  processList env st (pyFiles (env.walk directory))

/-- Exit behaviour of the whole process: `exit code`, termination by an
uncaught exception, or hanging on the interactive prompt. -/
inductive MainResult where
  | exit (code : Nat) (st : PState)
  | abort (st : PState)
  | hang (st : PState)

/-- The state carried by a `MainResult`. -/
def MainResult.state : MainResult → PState
  | .exit _ st => st
  | .abort st => st
  | .hang st => st

/-- The exit code of a normal process termination (`sys.exit` or falling
off the end of `main`); `none` for an uncaught exception or a hang. -/
def MainResult.code : MainResult → Option Nat
  | .exit c _ => some c
  | .abort _ => none
  | .hang _ => none

/-- Lift a pipeline result to the process exit behaviour: normal return is
exit status 0. -/
def wrapRes : Res Unit → MainResult
  | .ok st _ => .exit 0 st
  | .exn st => .abort st
  | .blocked st => .hang st

/-- The usage line printed on a wrong argument count (src line 94). -/
def usageMsg : String := "Usage: python lint_and_format.py <file_or_directory>"

/-- Embeds `main` (src lines 92-104; named `mainEntry` here since Lean reserves `main`).  `argv` models `sys.argv` (program
name included).  `os.path.isfile` is modelled by membership in the
filesystem map; `os.path.isdir` by `env.isdir`. -/
def mainEntry (env : Env) (st : PState) (argv : List String) : MainResult :=
  if h : argv.length = 2 then
    let target := argv.get ⟨1, by omega⟩
    if (st.fs target).isSome then
      wrapRes (process_file env st target)
    else if env.isdir target then
      wrapRes (process_directory env st target)
    else
      .exit 1 (printLine st
        ("Error: " ++ target ++ " is not a valid file or directory"))
  else
    .exit 1 (printLine st usageMsg)

/-! ## Concrete instances used to exercise the definitions -/

/-- A state with an empty filesystem and no pending input. -/
def st0 : PState :=
  { fs := fun _ => none, stdin := [], reads := [], writes := [],
    output := [], prompts := 0, steps := [] }

/-- An environment whose tools all succeed, with distinctive outputs. -/
def envW : Env :=
  { lintRun := fun _ => some "lint",
    fix_code := fun s => some ("F" ++ s),
    isortFile := fun s => some ("S" ++ s),
    formatFileContents := fun s => BlackResult.ok ("B" ++ s),
    isdir := fun _ => false,
    walk := fun _ => [] }

/-- Like `envW` but black rejects every input as invalid. -/
def envB : Env :=
  { envW with formatFileContents := fun _ => BlackResult.invalidInput }

/-- The content of a file that already has a module docstring. -/
def cDoc : String := "\"\"\"d\"\"\"\npass"

/-- A state holding `a.py` with a docstring already present. -/
def stD : PState :=
  { st0 with fs := fun q => if q = "a.py" then some cDoc else none }

/-- A state holding `a.py` without a docstring and the operator input
" a " (note the surrounding spaces) queued on stdin. -/
def stC : PState :=
  { st0 with fs := fun q => if q = "a.py" then some "x = 1" else none,
             stdin := [" a "] }

/-- A state holding `a.py` whose docstring uses triple single quotes, with
one operator input line queued. -/
def stS : PState :=
  { st0 with
      fs := fun q => if q = "a.py" then some "\x27\x27\x27d\x27\x27\x27\nx = 1" else none,
      stdin := ["doc"] }

/-- A state holding a file whose name does not end in `.py`. -/
def stT : PState :=
  { st0 with fs := fun q => if q = "notes.txt" then some cDoc else none }

/-- An environment with identity-like tools and one directory `d` holding
three `.py` files and one non-matching file. -/
def envD : Env :=
  { lintRun := fun _ => some "lint",
    fix_code := fun s => some s,
    isortFile := fun s => some s,
    formatFileContents := fun s => BlackResult.ok s,
    isdir := fun q => q == "d",
    walk := fun q =>
      if q = "d" then [("d", ["a.py", "notes.txt", "b.py", "c.py"])]
      else [] }

/-- The filesystem for the directory runs: three Python files (each with
a docstring) and one non-matching text file. -/
def stDir : PState :=
  { st0 with fs := fun q =>
      if q = "d/a.py" then some "\"\"\"a\"\"\"\npass" else
      if q = "d/b.py" then some "\"\"\"b\"\"\"\npass" else
      if q = "d/c.py" then some "\"\"\"c\"\"\"\npass" else
      if q = "d/notes.txt" then some "just notes" else none }

/-- Like `envD` but autoflake crashes on the content of `d/b.py`, and the
walk yields only the three Python files. -/
def envX : Env :=
  { envD with
      fix_code := fun s =>
        if s = "\"\"\"b\"\"\"\nBOOM" then none else some s,
      walk := fun q =>
        if q = "d" then [("d", ["a.py", "b.py", "c.py"])] else [] }

/-- The filesystem for the halting directory run: `d/b.py` holds the
content on which the autoflake of `envX` crashes. -/
def stX : PState :=
  { st0 with fs := fun q =>
      if q = "d/a.py" then some "\"\"\"a\"\"\"\npass" else
      if q = "d/b.py" then some "\"\"\"b\"\"\"\nBOOM" else
      if q = "d/c.py" then some "\"\"\"c\"\"\"\npass" else none }

/-! ## Helper lemmas -/

/-- A state evolution that reads, writes and changes only the file
`fp` (console output may grow arbitrarily). -/
def touchesOnly (st st' : PState) (fp : String) : Prop :=
  (∃ l, st'.reads = st.reads ++ l ∧ ∀ q ∈ l, q = fp) ∧
  (∃ w, st'.writes = st.writes ++ w ∧ ∀ q ∈ w, q = fp) ∧
  (∃ o, st'.output = st.output ++ o) ∧
  ∀ q, q ≠ fp → st'.fs q = st.fs q

theorem touchesOnly_refl (st : PState) (fp : String) : touchesOnly st st fp :=
  ⟨⟨[], by simp⟩, ⟨[], by simp⟩, ⟨[], by simp⟩, fun _ _ => rfl⟩

theorem touchesOnly_trans {st st' st'' : PState} {fp : String}
    (h1 : touchesOnly st st' fp) (h2 : touchesOnly st' st'' fp) :
    touchesOnly st st'' fp := by
  obtain ⟨⟨l1, hr1, hl1⟩, ⟨w1, hw1, hq1⟩, ⟨o1, ho1⟩, hf1⟩ := h1
  obtain ⟨⟨l2, hr2, hl2⟩, ⟨w2, hw2, hq2⟩, ⟨o2, ho2⟩, hf2⟩ := h2
  refine ⟨⟨l1 ++ l2, by simp [hr2, hr1], ?_⟩,
          ⟨w1 ++ w2, by simp [hw2, hw1], ?_⟩,
          ⟨o1 ++ o2, by simp [ho2, ho1]⟩,
          fun q hq => (hf2 q hq).trans (hf1 q hq)⟩
  · intro q hq
    rcases List.mem_append.1 hq with h | h
    · exact hl1 q h
    · exact hl2 q h
  · intro q hq
    rcases List.mem_append.1 hq with h | h
    · exact hq1 q h
    · exact hq2 q h

theorem run_pylint_state (env : Env) (st : PState) (fp : String) :
    Res.state (run_pylint env st fp) = { st with reads := st.reads ++ [fp] } ∧
    (run_pylint env st fp).isBlocked = false := by
  cases h : env.lintRun ((st.fs fp).getD "") <;>
    simp [run_pylint, h, Res.state, Res.isBlocked]

theorem Res.state_ok {α : Type} (st : PState) (a : α) :
    (Res.ok st a).state = st := rfl

theorem Res.state_exn {α : Type} (st : PState) :
    ((Res.exn st : Res α)).state = st := rfl

theorem Res.state_blocked {α : Type} (st : PState) :
    ((Res.blocked st : Res α)).state = st := rfl

attribute [simp] Res.state_ok Res.state_exn Res.state_blocked

theorem prompt_frame (st : PState) (fp : String) :
    touchesOnly st (Res.state (prompt_for_docstring st fp)) fp := by
  unfold prompt_for_docstring
  dsimp only
  split
  · exact ⟨⟨[fp], by simp, by simp⟩, ⟨[], by simp⟩, ⟨[], by simp⟩,
      fun q _ => rfl⟩
  · split
    · exact ⟨⟨[fp], by simp, by simp⟩, ⟨[], by simp⟩, ⟨[], by simp⟩,
        fun q _ => rfl⟩
    · split
      · exact ⟨⟨[fp], by simp [printLine], by simp⟩,
          ⟨[], by simp [printLine]⟩,
          ⟨["No docstring found in " ++ fp ++ ". Please enter a docstring:"],
            by simp [printLine]⟩,
          fun q _ => by simp [printLine]⟩
      · refine ⟨⟨[fp], by simp [fsWrite, printLine], by simp⟩,
          ⟨[fp], by simp [fsWrite, printLine], by simp⟩,
          ⟨["No docstring found in " ++ fp ++ ". Please enter a docstring:"],
            by simp [fsWrite, printLine]⟩, fun q hq => ?_⟩
        simp [fsWrite, printLine, hq]

theorem touchesOnly_printLine (st : PState) (l fp : String) :
    touchesOnly st (printLine st l) fp :=
  ⟨⟨[], by simp [printLine], by simp⟩, ⟨[], by simp [printLine], by simp⟩,
   ⟨[l], by simp [printLine]⟩, fun _ _ => rfl⟩

theorem touchesOnly_mark (st : PState) (s : Step) (fp : String) :
    touchesOnly st (mark st s) fp :=
  ⟨⟨[], by simp [mark], by simp⟩, ⟨[], by simp [mark], by simp⟩,
   ⟨[], by simp [mark]⟩, fun _ _ => rfl⟩

theorem touchesOnly_read (st : PState) (fp : String) :
    touchesOnly st { st with reads := st.reads ++ [fp] } fp :=
  ⟨⟨[fp], by simp, by simp⟩, ⟨[], by simp⟩, ⟨[], by simp⟩, fun _ _ => rfl⟩

theorem touchesOnly_write (st : PState) (fp c : String) :
    touchesOnly st (fsWrite st fp c) fp :=
  ⟨⟨[], by simp [fsWrite], by simp⟩, ⟨[fp], by simp [fsWrite], by simp⟩,
   ⟨[], by simp [fsWrite]⟩, fun q hq => by simp [fsWrite, hq]⟩

theorem touches_reads_mono {st st' : PState} {fp : String}
    (h : touchesOnly st st' fp) {q : String} (hq : q ∈ st.reads) :
    q ∈ st'.reads := by
  obtain ⟨⟨l, hr, _⟩, _, _, _⟩ := h
  rw [hr]
  exact List.mem_append_left _ hq

theorem output_banner_mono {st1 st' : PState} {fp b : String}
    {pre m : List String}
    (h : touchesOnly st1 st' fp) (hb : st1.output = pre ++ b :: m) :
    ∃ o, st'.output = pre ++ b :: o := by
  obtain ⟨_, _, ⟨o, ho⟩, _⟩ := h
  exact ⟨m ++ o, by rw [ho, hb]; simp⟩

theorem assemble {st stP st' : PState} {fp : String} {m : List String}
    (h0 : touchesOnly st stP fp) (hr : fp ∈ stP.reads)
    (ho : stP.output = st.output ++ ("Processing " ++ fp) :: m)
    (h1 : touchesOnly stP st' fp) :
    touchesOnly st st' fp ∧ fp ∈ st'.reads ∧
      ∃ o, st'.output = st.output ++ ("Processing " ++ fp) :: o :=
  ⟨touchesOnly_trans h0 h1, touches_reads_mono h1 hr, output_banner_mono h1 ho⟩

theorem isort_frame (env : Env) (st : PState) (fp : String) :
    touchesOnly st (Res.state (isort_file env st fp)) fp ∧
    (isort_file env st fp).isBlocked = false ∧
    (Res.state (isort_file env st fp)).stdin = st.stdin ∧
    (Res.state (isort_file env st fp)).prompts = st.prompts := by
  unfold isort_file
  dsimp only
  split
  · exact ⟨⟨⟨[fp], by simp, by simp⟩, ⟨[], by simp⟩, ⟨[], by simp⟩,
      fun _ _ => rfl⟩, rfl, rfl, rfl⟩
  · split
    · exact ⟨⟨⟨[fp], by simp, by simp⟩, ⟨[], by simp⟩, ⟨[], by simp⟩,
        fun _ _ => rfl⟩, rfl, rfl, rfl⟩
    · exact ⟨⟨⟨[fp], by simp [fsWrite], by simp⟩,
        ⟨[fp], by simp [fsWrite], by simp⟩, ⟨[], by simp [fsWrite]⟩,
        fun q hq => by simp [fsWrite, hq]⟩, rfl,
        by simp [fsWrite], by simp [fsWrite]⟩

theorem finalLint_frame (env : Env) (st : PState) (fp : String) :
    touchesOnly st (Res.state (finalLint env st fp)) fp ∧
    (finalLint env st fp).isBlocked = false ∧
    (Res.state (finalLint env st fp)).stdin = st.stdin ∧
    (Res.state (finalLint env st fp)).prompts = st.prompts := by
  unfold finalLint
  dsimp only
  cases heq : run_pylint env (printLine st "Running final pylint...") fp with
  | exn s =>
    have hst := (run_pylint_state env (printLine st "Running final pylint...") fp).1
    rw [heq] at hst
    simp only [Res.state_exn] at hst
    subst hst
    exact ⟨⟨⟨[fp], by simp [printLine], by simp⟩, ⟨[], by simp [printLine]⟩,
      ⟨["Running final pylint..."], by simp [printLine]⟩,
      fun _ _ => by simp [printLine]⟩, rfl,
      by simp [printLine], by simp [printLine]⟩
  | blocked s =>
    have hb := (run_pylint_state env (printLine st "Running final pylint...") fp).2
    rw [heq] at hb
    simp [Res.isBlocked] at hb
  | ok s r =>
    have hst := (run_pylint_state env (printLine st "Running final pylint...") fp).1
    rw [heq] at hst
    simp only [Res.state_ok] at hst
    subst hst
    exact ⟨⟨⟨[fp], by simp [printLine, mark], by simp⟩,
      ⟨[], by simp [printLine, mark]⟩,
      ⟨["Running final pylint...", r], by simp [printLine, mark]⟩,
      fun _ _ => by simp [printLine, mark]⟩, rfl,
      by simp [printLine, mark], by simp [printLine, mark]⟩

theorem prompt_docstring_present (st : PState) (fp c : String)
    (hc : st.fs fp = some c) (hq : pyStartswith (pyLstrip c) tq = true) :
    prompt_for_docstring st fp = .ok { st with reads := st.reads ++ [fp] } () := by
  simp [prompt_for_docstring, hc, hq]

theorem autoflake_frame (env : Env) (st : PState) (fp : String) :
    touchesOnly st (Res.state (autoflakeStep env st fp)) fp ∧
    (autoflakeStep env st fp).isBlocked = false ∧
    (Res.state (autoflakeStep env st fp)).stdin = st.stdin ∧
    (Res.state (autoflakeStep env st fp)).prompts = st.prompts := by
  unfold autoflakeStep
  dsimp only
  split
  · exact ⟨⟨⟨[fp], by simp [printLine], by simp⟩, ⟨[], by simp [printLine]⟩,
      ⟨["Applying autoflake..."], by simp [printLine]⟩,
      fun _ _ => by simp [printLine]⟩, rfl,
      by simp [printLine], by simp [printLine]⟩
  · split
    · exact ⟨⟨⟨[fp], by simp [printLine], by simp⟩, ⟨[], by simp [printLine]⟩,
        ⟨["Applying autoflake..."], by simp [printLine]⟩,
        fun _ _ => by simp [printLine]⟩, rfl,
        by simp [printLine], by simp [printLine]⟩
    · exact ⟨⟨⟨[fp], by simp [printLine, mark, fsWrite], by simp⟩,
        ⟨[fp], by simp [printLine, mark, fsWrite], by simp⟩,
        ⟨["Applying autoflake..."], by simp [printLine, mark, fsWrite]⟩,
        fun q hq => by simp [printLine, mark, fsWrite, hq]⟩, rfl,
        by simp [printLine, mark, fsWrite],
        by simp [printLine, mark, fsWrite]⟩

theorem black_frame (env : Env) (st : PState) (fp : String) :
    touchesOnly st (Res.state (blackStep env st fp)) fp ∧
    (blackStep env st fp).isBlocked = false ∧
    (Res.state (blackStep env st fp)).stdin = st.stdin ∧
    (Res.state (blackStep env st fp)).prompts = st.prompts := by
  unfold blackStep
  dsimp only
  split
  · exact ⟨⟨⟨[fp], by simp [printLine], by simp⟩, ⟨[], by simp [printLine]⟩,
      ⟨["Applying black..."], by simp [printLine]⟩,
      fun _ _ => by simp [printLine]⟩, rfl,
      by simp [printLine], by simp [printLine]⟩
  · split
    · exact ⟨⟨⟨[fp], by simp [printLine], by simp⟩, ⟨[], by simp [printLine]⟩,
        ⟨["Applying black..."], by simp [printLine]⟩,
        fun _ _ => by simp [printLine]⟩, rfl,
        by simp [printLine], by simp [printLine]⟩
    · exact ⟨⟨⟨[fp], by simp [printLine, mark], by simp⟩,
        ⟨[], by simp [printLine, mark]⟩,
        ⟨["Applying black...", "Warning: Black could not format " ++ fp],
          by simp [printLine, mark]⟩,
        fun _ _ => by simp [printLine, mark]⟩, rfl,
        by simp [printLine, mark], by simp [printLine, mark]⟩
    · exact ⟨⟨⟨[fp], by simp [printLine, mark, fsWrite], by simp⟩,
        ⟨[fp], by simp [printLine, mark, fsWrite], by simp⟩,
        ⟨["Applying black..."], by simp [printLine, mark, fsWrite]⟩,
        fun q hq => by simp [printLine, mark, fsWrite, hq]⟩, rfl,
        by simp [printLine, mark, fsWrite],
        by simp [printLine, mark, fsWrite]⟩

theorem afterDocstring_frame (env : Env) (st : PState) (fp : String) :
    touchesOnly st (Res.state (afterDocstring env st fp)) fp ∧
    (afterDocstring env st fp).isBlocked = false ∧
    (Res.state (afterDocstring env st fp)).stdin = st.stdin ∧
    (Res.state (afterDocstring env st fp)).prompts = st.prompts := by
  unfold afterDocstring
  dsimp only
  cases heq3 : autoflakeStep env st fp with
  | exn s3 =>
    have h := autoflake_frame env st fp
    rw [heq3] at h
    simp only [Res.state_exn] at h
    exact ⟨h.1, rfl, h.2.2.1, h.2.2.2⟩
  | blocked s3 =>
    have hb := (autoflake_frame env st fp).2.1
    rw [heq3] at hb
    simp [Res.isBlocked] at hb
  | ok s3 u3 =>
    have h := autoflake_frame env st fp
    rw [heq3] at h
    simp only [Res.state_ok] at h
    dsimp only
    cases heq4 : isort_file env (printLine s3 "Applying isort...") fp with
    | exn s4 =>
      have h4 := isort_frame env (printLine s3 "Applying isort...") fp
      rw [heq4] at h4
      simp only [Res.state_exn] at h4
      dsimp only
      refine ⟨touchesOnly_trans (touchesOnly_trans h.1
        (touchesOnly_printLine s3 "Applying isort..." fp)) h4.1, rfl, ?_, ?_⟩
      · simp only [Res.state_exn]
        rw [h4.2.2.1]; simp [printLine, h.2.2.1]
      · simp only [Res.state_exn]
        rw [h4.2.2.2]; simp [printLine, h.2.2.2]
    | blocked s4 =>
      have hb := (isort_frame env (printLine s3 "Applying isort...") fp).2.1
      rw [heq4] at hb
      simp [Res.isBlocked] at hb
    | ok s4 u4 =>
      have h4 := isort_frame env (printLine s3 "Applying isort...") fp
      rw [heq4] at h4
      simp only [Res.state_ok] at h4
      dsimp only
      cases heq5 : blackStep env (mark s4 Step.sort) fp with
      | exn s5 =>
        have h5 := black_frame env (mark s4 Step.sort) fp
        rw [heq5] at h5
        simp only [Res.state_exn] at h5
        dsimp only
        refine ⟨touchesOnly_trans (touchesOnly_trans (touchesOnly_trans
          (touchesOnly_trans h.1
            (touchesOnly_printLine s3 "Applying isort..." fp)) h4.1)
          (touchesOnly_mark s4 Step.sort fp)) h5.1, rfl, ?_, ?_⟩
        · simp only [Res.state_exn]
          rw [h5.2.2.1]; simp [mark, h4.2.2.1, printLine, h.2.2.1]
        · simp only [Res.state_exn]
          rw [h5.2.2.2]; simp [mark, h4.2.2.2, printLine, h.2.2.2]
      | blocked s5 =>
        have hb := (black_frame env (mark s4 Step.sort) fp).2.1
        rw [heq5] at hb
        simp [Res.isBlocked] at hb
      | ok s5 u5 =>
        have h5 := black_frame env (mark s4 Step.sort) fp
        rw [heq5] at h5
        simp only [Res.state_ok] at h5
        dsimp only
        have h6 := finalLint_frame env s5 fp
        refine ⟨touchesOnly_trans (touchesOnly_trans (touchesOnly_trans
          (touchesOnly_trans (touchesOnly_trans h.1
            (touchesOnly_printLine s3 "Applying isort..." fp)) h4.1)
          (touchesOnly_mark s4 Step.sort fp)) h5.1) h6.1,
          h6.2.1, ?_, ?_⟩
        · rw [h6.2.2.1, h5.2.2.1]
          simp [mark, h4.2.2.1, printLine, h.2.2.1]
        · rw [h6.2.2.2, h5.2.2.2]
          simp [mark, h4.2.2.2, printLine, h.2.2.2]

theorem process_file_frame (env : Env) (st : PState) (fp : String) :
    touchesOnly st (Res.state (process_file env st fp)) fp ∧
    fp ∈ (Res.state (process_file env st fp)).reads ∧
    (∃ o, (Res.state (process_file env st fp)).output =
      st.output ++ ("Processing " ++ fp) :: o) := by
  unfold process_file
  dsimp only
  set p1 := printLine (printLine st ("Processing " ++ fp))
    "Running initial pylint..." with hp1
  have hP : touchesOnly st { p1 with reads := p1.reads ++ [fp] } fp :=
    touchesOnly_trans (touchesOnly_trans
      (touchesOnly_printLine st ("Processing " ++ fp) fp)
      (touchesOnly_printLine _ "Running initial pylint..." fp))
      (touchesOnly_read p1 fp)
  have hPr : fp ∈ ({ p1 with reads := p1.reads ++ [fp] } : PState).reads := by
    simp
  have hPo : ({ p1 with reads := p1.reads ++ [fp] } : PState).output =
      st.output ++ ("Processing " ++ fp) :: ["Running initial pylint..."] := by
    simp [hp1, printLine]
  cases heq1 : run_pylint env p1 fp with
  | blocked s =>
    have hb := (run_pylint_state env p1 fp).2
    rw [heq1] at hb
    simp [Res.isBlocked] at hb
  | exn s =>
    have hst := (run_pylint_state env p1 fp).1
    rw [heq1] at hst
    simp only [Res.state_exn] at hst
    subst hst
    exact assemble hP hPr hPo (touchesOnly_refl _ _)
  | ok s r =>
    have hst := (run_pylint_state env p1 fp).1
    rw [heq1] at hst
    simp only [Res.state_ok] at hst
    subst hst
    dsimp only
    have hA : touchesOnly ({ p1 with reads := p1.reads ++ [fp] } : PState)
        (mark (printLine { p1 with reads := p1.reads ++ [fp] } r)
          Step.preLint) fp :=
      touchesOnly_trans (touchesOnly_printLine _ r fp)
        (touchesOnly_mark _ Step.preLint fp)
    cases heq2 : prompt_for_docstring
        (mark (printLine { p1 with reads := p1.reads ++ [fp] } r)
          Step.preLint) fp with
    | exn s2 =>
      have hpf := prompt_frame
        (mark (printLine { p1 with reads := p1.reads ++ [fp] } r)
          Step.preLint) fp
      rw [heq2] at hpf
      simp only [Res.state_exn] at hpf
      exact assemble hP hPr hPo (touchesOnly_trans hA hpf)
    | blocked s2 =>
      have hpf := prompt_frame
        (mark (printLine { p1 with reads := p1.reads ++ [fp] } r)
          Step.preLint) fp
      rw [heq2] at hpf
      simp only [Res.state_blocked] at hpf
      exact assemble hP hPr hPo (touchesOnly_trans hA hpf)
    | ok s2 u2 =>
      have hpf := prompt_frame
        (mark (printLine { p1 with reads := p1.reads ++ [fp] } r)
          Step.preLint) fp
      rw [heq2] at hpf
      simp only [Res.state_ok] at hpf
      dsimp only
      have ha := afterDocstring_frame env (mark s2 Step.docstringCheck) fp
      exact assemble hP hPr hPo (touchesOnly_trans (touchesOnly_trans hA hpf)
        (touchesOnly_trans (touchesOnly_mark s2 Step.docstringCheck fp) ha.1))

theorem process_file_noninteractive (env : Env) (st : PState) (fp c : String)
    (hc : st.fs fp = some c) (hq : pyStartswith (pyLstrip c) tq = true) :
    (process_file env st fp).isBlocked = false ∧
    (Res.state (process_file env st fp)).stdin = st.stdin ∧
    (Res.state (process_file env st fp)).prompts = st.prompts := by
  unfold process_file
  dsimp only
  set p1 := printLine (printLine st ("Processing " ++ fp))
    "Running initial pylint..." with hp1
  cases heq1 : run_pylint env p1 fp with
  | blocked s =>
    have hb := (run_pylint_state env p1 fp).2
    rw [heq1] at hb
    simp [Res.isBlocked] at hb
  | exn s =>
    have hst := (run_pylint_state env p1 fp).1
    rw [heq1] at hst
    simp only [Res.state_exn] at hst
    subst hst
    exact ⟨rfl, by simp [hp1, printLine], by simp [hp1, printLine]⟩
  | ok s r =>
    have hst := (run_pylint_state env p1 fp).1
    rw [heq1] at hst
    simp only [Res.state_ok] at hst
    subst hst
    dsimp only
    rw [prompt_docstring_present
      (mark (printLine { p1 with reads := p1.reads ++ [fp] } r) Step.preLint)
      fp c (by simp [hp1, printLine, mark, hc]) hq]
    dsimp only
    refine ⟨(afterDocstring_frame env _ fp).2.1, ?_, ?_⟩
    · rw [(afterDocstring_frame env _ fp).2.2.1]
      simp [hp1, printLine, mark]
    · rw [(afterDocstring_frame env _ fp).2.2.2]
      simp [hp1, printLine, mark]

theorem processList_reads_mono (env : Env) :
    ∀ (l : List String) (st : PState) (q : String),
      q ∈ st.reads → q ∈ (Res.state (processList env st l)).reads := by
  intro l
  induction l with
  | nil => intro st q hq; simpa [processList] using hq
  | cons fp rest ih =>
    intro st q hq
    simp only [processList]
    cases heq : process_file env st fp with
    | ok st1 a =>
      have hf := (process_file_frame env st fp).1
      rw [heq] at hf
      simp only [Res.state_ok] at hf
      exact ih st1 q (touches_reads_mono hf hq)
    | exn s =>
      have hf := (process_file_frame env st fp).1
      rw [heq] at hf
      simp only [Res.state_exn] at hf
      simpa using touches_reads_mono hf hq
    | blocked s =>
      have hf := (process_file_frame env st fp).1
      rw [heq] at hf
      simp only [Res.state_blocked] at hf
      simpa using touches_reads_mono hf hq

theorem processList_reads (env : Env) :
    ∀ (l : List String) (st st' : PState),
      processList env st l = .ok st' () → ∀ fp ∈ l, fp ∈ st'.reads := by
  intro l
  induction l with
  | nil => intro st st' _ fp hfp; simp at hfp
  | cons fp0 rest ih =>
    intro st st' hok fp hfp
    simp only [processList] at hok
    cases heq : process_file env st fp0 with
    | ok st1 a =>
      rw [heq] at hok
      dsimp only at hok
      rcases List.mem_cons.1 hfp with h | h
      · subst h
        have hr := (process_file_frame env st fp).2.1
        rw [heq] at hr
        simp only [Res.state_ok] at hr
        have := processList_reads_mono env rest st1 fp hr
        rw [hok] at this
        simpa using this
      · exact ih st1 st' hok fp h
    | exn s => rw [heq] at hok; simp at hok
    | blocked s => rw [heq] at hok; simp at hok

theorem processList_frame (env : Env) :
    ∀ (l : List String) (st : PState),
      (∀ q, q ∉ l → (Res.state (processList env st l)).fs q = st.fs q) ∧
      (∀ q, q ∈ (Res.state (processList env st l)).reads →
        q ∈ st.reads ∨ q ∈ l) ∧
      (∀ q, q ∈ (Res.state (processList env st l)).writes →
        q ∈ st.writes ∨ q ∈ l) := by
  intro l
  induction l with
  | nil => intro st; simp [processList]
  | cons fp rest ih =>
    intro st
    simp only [processList]
    cases heq : process_file env st fp with
    | ok st1 a =>
      have hf := (process_file_frame env st fp).1
      rw [heq] at hf
      simp only [Res.state_ok] at hf
      obtain ⟨⟨lr, hlr, hlq⟩, ⟨lw, hlw, hwq⟩, _, hfs⟩ := hf
      refine ⟨?_, ?_, ?_⟩
      · intro q hq
        have hq1 : q ∉ rest := fun h => hq (List.mem_cons_of_mem _ h)
        have hq2 : q ≠ fp := fun h => hq (h ▸ List.mem_cons_self _ _)
        exact ((ih st1).1 q hq1).trans (hfs q hq2)
      · intro q hq
        rcases (ih st1).2.1 q hq with h | h
        · rw [hlr] at h
          rcases List.mem_append.1 h with h | h
          · exact Or.inl h
          · exact Or.inr (List.mem_cons.2 (Or.inl (hlq q h)))
        · exact Or.inr (List.mem_cons_of_mem _ h)
      · intro q hq
        rcases (ih st1).2.2 q hq with h | h
        · rw [hlw] at h
          rcases List.mem_append.1 h with h | h
          · exact Or.inl h
          · exact Or.inr (List.mem_cons.2 (Or.inl (hwq q h)))
        · exact Or.inr (List.mem_cons_of_mem _ h)
    | exn s =>
      have hf := (process_file_frame env st fp).1
      rw [heq] at hf
      simp only [Res.state_exn] at hf
      dsimp only
      obtain ⟨⟨lr, hlr, hlq⟩, ⟨lw, hlw, hwq⟩, _, hfs⟩ := hf
      refine ⟨?_, ?_, ?_⟩
      · intro q hq
        exact hfs q (fun h => hq (h ▸ List.mem_cons_self _ _))
      · intro q hq
        simp only [Res.state_exn, Res.state_blocked] at hq
        rw [hlr] at hq
        rcases List.mem_append.1 hq with h | h
        · exact Or.inl h
        · exact Or.inr (List.mem_cons.2 (Or.inl (hlq q h)))
      · intro q hq
        simp only [Res.state_exn, Res.state_blocked] at hq
        rw [hlw] at hq
        rcases List.mem_append.1 hq with h | h
        · exact Or.inl h
        · exact Or.inr (List.mem_cons.2 (Or.inl (hwq q h)))
    | blocked s =>
      have hf := (process_file_frame env st fp).1
      rw [heq] at hf
      simp only [Res.state_blocked] at hf
      dsimp only
      obtain ⟨⟨lr, hlr, hlq⟩, ⟨lw, hlw, hwq⟩, _, hfs⟩ := hf
      refine ⟨?_, ?_, ?_⟩
      · intro q hq
        exact hfs q (fun h => hq (h ▸ List.mem_cons_self _ _))
      · intro q hq
        simp only [Res.state_exn, Res.state_blocked] at hq
        rw [hlr] at hq
        rcases List.mem_append.1 hq with h | h
        · exact Or.inl h
        · exact Or.inr (List.mem_cons.2 (Or.inl (hlq q h)))
      · intro q hq
        simp only [Res.state_exn, Res.state_blocked] at hq
        rw [hlw] at hq
        rcases List.mem_append.1 hq with h | h
        · exact Or.inl h
        · exact Or.inr (List.mem_cons.2 (Or.inl (hwq q h)))

theorem processList_append_exn (env : Env) :
    ∀ (l1 : List String) (st st1 st2 : PState) (fp : String)
      (l2 : List String),
      processList env st l1 = .ok st1 () →
      process_file env st1 fp = .exn st2 →
      processList env st (l1 ++ fp :: l2) = .exn st2 := by
  intro l1
  induction l1 with
  | nil =>
    intro st st1 st2 fp l2 hok hexn
    simp only [processList] at hok
    cases hok
    simp [processList, hexn]
  | cons a rest ih =>
    intro st st1 st2 fp l2 hok hexn
    simp only [processList] at hok ⊢
    cases heq : process_file env st a with
    | ok u b => rw [heq] at hok; exact ih u st1 st2 fp l2 hok hexn
    | exn s => rw [heq] at hok; simp at hok
    | blocked s => rw [heq] at hok; simp at hok

/-- C2: for every target file (here: on which every delegated tool
succeeds and whose docstring is present), the per-file pipeline executes
exactly the fixed sequence pre-lint, docstring check, dead-code strip with
write, import sort with write, format with write, post-lint — recorded in
the step trace — with no retries and no parallelism, and each write fully
persists before the next step reads: the stripper consumes the on-disk
content `c0`, the sorter consumes the written output `c1` of the stripper,
the formatter consumes the written output `c2` of the sorter, and the final
content is the formatter output `c3`. -/
theorem pipeline_fixed_sequence (env : Env) (st : PState)
    (fp c0 c1 c2 c3 r1 r2 : String)
    (hc : st.fs fp = some c0)
    (hq : pyStartswith (pyLstrip c0) tq = true)
    (h1 : env.lintRun c0 = some r1)
    (h2 : env.fix_code c0 = some c1)
    (h3 : env.isortFile c1 = some c2)
    (h4 : env.formatFileContents c2 = BlackResult.ok c3)
    (h5 : env.lintRun c3 = some r2) :
    (process_file env st fp).isOk = true ∧
    (Res.state (process_file env st fp)).steps = st.steps ++
      [Step.preLint, Step.docstringCheck, Step.strip, Step.sort, Step.fmt,
        Step.postLint] ∧
    (Res.state (process_file env st fp)).fs fp = some c3 ∧
    (Res.state (process_file env st fp)).writes = st.writes ++
      [fp, fp, fp] ∧
    (Res.state (process_file env st fp)).reads = st.reads ++
      [fp, fp, fp, fp, fp, fp] ∧
    (Res.state (process_file env st fp)).stdin = st.stdin := by
  simp [process_file, afterDocstring, autoflakeStep, blackStep, isort_file,
    finalLint, run_pylint, prompt_for_docstring, printLine, mark, fsWrite,
    hc, hq, h1, h2, h3, h4, h5, Res.isOk, Res.state]

/-- C1: for every file the formatter rejects as invalid input (and on
which the other tools succeed; docstring present so the run is
non-interactive), the formatting step raises only the invalid-input
condition, which is caught locally: the warning is printed, the on-disk
content after the whole run equals the content `c2` produced by the
import-sort step (earlier passes are not undone), the pipeline continues
to the post-lint step, and the process exits with status 0. -/
theorem formatter_invalid_contained (env : Env) (st : PState)
    (prog fp c0 c1 c2 r1 r2 : String)
    (hc : st.fs fp = some c0)
    (hq : pyStartswith (pyLstrip c0) tq = true)
    (h1 : env.lintRun c0 = some r1)
    (h2 : env.fix_code c0 = some c1)
    (h3 : env.isortFile c1 = some c2)
    (h4 : env.formatFileContents c2 = BlackResult.invalidInput)
    (h5 : env.lintRun c2 = some r2) :
    (mainEntry env st [prog, fp]).code = some 0 ∧
    (MainResult.state (mainEntry env st [prog, fp])).fs fp = some c2 ∧
    ("Warning: Black could not format " ++ fp) ∈
      (MainResult.state (mainEntry env st [prog, fp])).output ∧
    (MainResult.state (mainEntry env st [prog, fp])).steps = st.steps ++
      [Step.preLint, Step.docstringCheck, Step.strip, Step.sort, Step.fmt,
        Step.postLint] := by
  simp [mainEntry, wrapRes, process_file, afterDocstring, autoflakeStep,
    blackStep, isort_file, finalLint, run_pylint, prompt_for_docstring,
    printLine, mark, fsWrite, hc, hq, h1, h2, h3, h4, h5,
    MainResult.code, MainResult.state, Res.state]

/-- C3: any invocation whose argument count differs from exactly one
positional argument (modelled as `sys.argv` length different from 2)
prints the usage message and exits with status 1, without reading or
writing any file. -/
theorem usage_error_exit (env : Env) (st : PState) (argv : List String)
    (h : argv.length ≠ 2) :
    mainEntry env st argv = .exit 1 (printLine st usageMsg) ∧
    (printLine st usageMsg).reads = st.reads ∧
    (printLine st usageMsg).writes = st.writes ∧
    (printLine st usageMsg).fs = st.fs := by
  refine ⟨?_, rfl, rfl, rfl⟩
  simp [mainEntry, h]

/-- C4: when the single positional argument names neither an existing
file nor an existing directory, the tool prints an error message and
exits with status 1 without reading or writing anything. -/
theorem invalid_target_exit (env : Env) (st : PState)
    (prog target : String)
    (hf : st.fs target = none) (hd : env.isdir target = false) :
    mainEntry env st [prog, target] = .exit 1 (printLine st
      ("Error: " ++ target ++ " is not a valid file or directory")) ∧
    (printLine st
      ("Error: " ++ target ++ " is not a valid file or directory")).reads
      = st.reads ∧
    (printLine st
      ("Error: " ++ target ++ " is not a valid file or directory")).writes
      = st.writes ∧
    (printLine st
      ("Error: " ++ target ++ " is not a valid file or directory")).fs
      = st.fs := by
  refine ⟨?_, rfl, rfl, rfl⟩
  simp [mainEntry, hf, hd]

/-- C5 (amended): for a file without a leading triple-double-quote
docstring, supplying operator input X rewrites the file to begin with a
docstring block containing X stripped of leading and trailing whitespace
(the code applies Python `input().strip()`), wrapped in triple quotes and
followed by a blank line, with the original content unchanged below the
inserted block. -/
theorem prompt_inserts_stripped_docstring (st : PState)
    (fp c line : String) (rest : List String)
    (hc : st.fs fp = some c)
    (hq : pyStartswith (pyLstrip c) tq = false)
    (hin : st.stdin = line :: rest) :
    (prompt_for_docstring st fp).isOk = true ∧
    (Res.state (prompt_for_docstring st fp)).fs fp =
      some (tq ++ "\n" ++ pyStrip line ++ "\n" ++ tq ++ "\n\n" ++ c) ∧
    (∀ q, q ≠ fp → (Res.state (prompt_for_docstring st fp)).fs q = st.fs q) ∧
    (Res.state (prompt_for_docstring st fp)).stdin = rest ∧
    (Res.state (prompt_for_docstring st fp)).prompts = st.prompts + 1 := by
  simp [prompt_for_docstring, hc, hq, hin, printLine, fsWrite, Res.isOk,
    Res.state]
  exact fun q h1 h2 => absurd h2 h1

/-- C5 counterexample: with the file content "x = 1" and the raw operator
input " a " (surrounding spaces), the rewritten file contains the
stripped docstring "a"; it does not contain the raw input " a " as the
docstring block, so the claim as stated (the block contains exactly X)
fails. -/
theorem prompt_raw_input_counterexample :
    (Res.state (prompt_for_docstring stC "a.py")).fs "a.py" =
      some ("\"\"\"\n" ++ "a" ++ "\n\"\"\"\n\n" ++ "x = 1") ∧
    ¬ ((Res.state (prompt_for_docstring stC "a.py")).fs "a.py" =
      some ("\"\"\"\n" ++ " a " ++ "\n\"\"\"\n\n" ++ "x = 1")) := by
  constructor
  · rfl
  · decide

/-- C6: for a file that already starts (after leading whitespace) with a
triple-double-quote docstring, processing never blocks on interactive
input: the whole per-file pipeline is never in the blocked state, the
stdin queue and the prompt counter are unchanged, and the docstring step
itself returns with only a file read. -/
theorem docstring_present_no_input (env : Env) (st : PState)
    (fp c : String)
    (hc : st.fs fp = some c) (hq : pyStartswith (pyLstrip c) tq = true) :
    (process_file env st fp).isBlocked = false ∧
    (Res.state (process_file env st fp)).stdin = st.stdin ∧
    (Res.state (process_file env st fp)).prompts = st.prompts ∧
    prompt_for_docstring st fp =
      .ok { st with reads := st.reads ++ [fp] } () :=
  ⟨(process_file_noninteractive env st fp c hc hq).1,
   (process_file_noninteractive env st fp c hc hq).2.1,
   (process_file_noninteractive env st fp c hc hq).2.2,
   prompt_docstring_present st fp c hc hq⟩

/-- C7: in a directory run that completes normally, every file selected
by the walk (exactly those whose name ends in `.py`, joined to their
root) is read, and every other path is untouched: its content is
unchanged and it is neither read nor written by the run. -/
theorem directory_extension_filter (env : Env) (st : PState)
    (dir : String)
    (h : (process_directory env st dir).isOk = true) :
    (∀ fp ∈ pyFiles (env.walk dir),
      fp ∈ (Res.state (process_directory env st dir)).reads) ∧
    (∀ q, q ∉ pyFiles (env.walk dir) →
      ((Res.state (process_directory env st dir)).fs q = st.fs q ∧
       (q ∈ (Res.state (process_directory env st dir)).reads →
         q ∈ st.reads) ∧
       (q ∈ (Res.state (process_directory env st dir)).writes →
         q ∈ st.writes))) := by
  cases hx : process_directory env st dir with
  | exn s => rw [hx] at h; simp [Res.isOk] at h
  | blocked s => rw [hx] at h; simp [Res.isOk] at h
  | ok st' a =>
    cases a
    have h' : processList env st (pyFiles (env.walk dir)) = .ok st' () := hx
    simp only [Res.state_ok]
    constructor
    · intro fp hfp
      exact processList_reads env (pyFiles (env.walk dir)) st st' h' fp hfp
    · intro q hq
      have hf := processList_frame env (pyFiles (env.walk dir)) st
      have hs2 : Res.state (processList env st (pyFiles (env.walk dir)))
          = st' := by rw [h']; rfl
      rw [hs2] at hf
      refine ⟨hf.1 q hq, ?_, ?_⟩
      · intro hr
        rcases hf.2.1 q hr with h1 | h1
        · exact h1
        · exact absurd h1 hq
      · intro hw
        rcases hf.2.2 q hw with h1 | h1
        · exact h1
        · exact absurd h1 hq

/-- C8: in a directory run, an uncaught exception while processing one
file halts the traversal: the whole run terminates with that exception
and its state (no rollback), and no file after the failing one in
traversal order is read, written or modified. -/
theorem directory_halts_on_exn (env : Env) (st : PState)
    (dir fp : String) (l1 l2 : List String)
    (hw : pyFiles (env.walk dir) = l1 ++ fp :: l2)
    (h1 : (processList env st l1).isOk = true)
    (h2 : (process_file env (Res.state (processList env st l1)) fp).isExn
      = true) :
    process_directory env st dir = .exn (Res.state
      (process_file env (Res.state (processList env st l1)) fp)) ∧
    ∀ q ∈ l2, q ∉ l1 → q ≠ fp →
      ((Res.state
          (process_file env (Res.state (processList env st l1)) fp)).fs q
        = st.fs q ∧
       (q ∈ (Res.state
          (process_file env (Res.state (processList env st l1)) fp)).reads →
        q ∈ st.reads) ∧
       (q ∈ (Res.state
          (process_file env (Res.state (processList env st l1)) fp)).writes →
        q ∈ st.writes)) := by
  cases hx1 : processList env st l1 with
  | exn s => rw [hx1] at h1; simp [Res.isOk] at h1
  | blocked s => rw [hx1] at h1; simp [Res.isOk] at h1
  | ok st1 a =>
    cases a
    rw [hx1] at h2
    simp only [Res.state_ok] at h2 ⊢
    cases hx2 : process_file env st1 fp with
    | ok s b => rw [hx2] at h2; simp [Res.isExn] at h2
    | blocked s => rw [hx2] at h2; simp [Res.isExn] at h2
    | exn st2 =>
      simp only [Res.state_exn]
      constructor
      · show processList env st (pyFiles (env.walk dir)) = .exn st2
        rw [hw]
        exact processList_append_exn env l1 st st1 st2 fp l2 hx1 hx2
      · intro q _ hq1 hqf
        have hfL := processList_frame env l1 st
        have hstate : Res.state (processList env st l1) = st1 := by
          rw [hx1]; rfl
        rw [hstate] at hfL
        have hfF := (process_file_frame env st1 fp).1
        rw [hx2] at hfF
        simp only [Res.state_exn] at hfF
        obtain ⟨⟨lr, hlr, hlq⟩, ⟨lw, hlw, hwq⟩, _, hfs⟩ := hfF
        refine ⟨?_, ?_, ?_⟩
        · rw [hfs q hqf]
          exact hfL.1 q hq1
        · intro hr
          rw [hlr] at hr
          rcases List.mem_append.1 hr with h | h
          · rcases hfL.2.1 q h with h3 | h3
            · exact h3
            · exact absurd h3 hq1
          · exact absurd (hlq q h) hqf
        · intro hwmem
          rw [hlw] at hwmem
          rcases List.mem_append.1 hwmem with h | h
          · rcases hfL.2.2 q h with h3 | h3
            · exact h3
            · exact absurd h3 hq1
          · exact absurd (hwq q h) hqf

/-- C9: in single-file mode no source-extension filter is applied: for
every path naming an existing file — whatever its name — `main` runs the
full per-file pipeline on it, as witnessed by the processing banner for
that path in the console output. -/
theorem single_file_no_extension_filter (env : Env) (st : PState)
    (prog target : String) (h : (st.fs target).isSome = true) :
    mainEntry env st [prog, target] =
      wrapRes (process_file env st target) ∧
    ("Processing " ++ target) ∈
      (MainResult.state (mainEntry env st [prog, target])).output := by
  have hm : mainEntry env st [prog, target] =
      wrapRes (process_file env st target) := by
    simp [mainEntry, h]
  refine ⟨hm, ?_⟩
  rw [hm]
  obtain ⟨o, ho⟩ := (process_file_frame env st target).2.2
  have hws : MainResult.state (wrapRes (process_file env st target)) =
      Res.state (process_file env st target) := by
    cases hx : process_file env st target <;>
      simp [wrapRes, MainResult.state, Res.state]
  rw [hws, ho]
  simp

theorem sq_not_dq (s : String) (h : pyStartswith s sq3 = true) :
    pyStartswith s tq = false := by
  have h3 : sq3.data = [Char.ofNat 39, Char.ofNat 39, Char.ofNat 39] := by
    decide
  have h4 : tq.data = [Char.ofNat 34, Char.ofNat 34, Char.ofNat 34] := by
    decide
  unfold pyStartswith at h ⊢
  rw [h3] at h
  rw [h4]
  cases hd : s.data with
  | nil => rw [hd] at h; simp [List.isPrefixOf] at h
  | cons a t =>
    rw [hd] at h
    simp only [List.isPrefixOf, Bool.and_eq_true, beq_iff_eq] at h
    obtain ⟨ha, _⟩ := h
    subst ha
    simp [List.isPrefixOf,
      (by decide : (Char.ofNat 34 == Char.ofNat 39) = false)]

/-- C10: the docstring check recognizes only the double-quote delimiter:
a file whose leading non-whitespace content begins with a
triple-single-quote docstring still triggers the interactive prompt
(consuming one operator input line) and gets a second,
triple-double-quote docstring block prepended above the existing
content. -/
theorem squote_docstring_not_recognized (st : PState)
    (fp c line : String) (rest : List String)
    (hc : st.fs fp = some c)
    (hsq : pyStartswith (pyLstrip c) sq3 = true)
    (hin : st.stdin = line :: rest) :
    (prompt_for_docstring st fp).isOk = true ∧
    (Res.state (prompt_for_docstring st fp)).prompts = st.prompts + 1 ∧
    (Res.state (prompt_for_docstring st fp)).stdin = rest ∧
    (Res.state (prompt_for_docstring st fp)).fs fp =
      some (tq ++ "\n" ++ pyStrip line ++ "\n" ++ tq ++ "\n\n" ++ c) := by
  have hq := sq_not_dq (pyLstrip c) hsq
  simp [prompt_for_docstring, hc, hq, hin, printLine, fsWrite, Res.isOk,
    Res.state]

/-- Witness for the C1 theorem: a concrete run in which black reports
invalid input. -/
theorem formatter_invalid_contained_witness :
    (mainEntry envB stD ["prog", "a.py"]).code = some 0 ∧
    (MainResult.state (mainEntry envB stD ["prog", "a.py"])).fs "a.py" =
      some ("S" ++ ("F" ++ cDoc)) ∧
    ("Warning: Black could not format " ++ "a.py") ∈
      (MainResult.state (mainEntry envB stD ["prog", "a.py"])).output ∧
    (MainResult.state (mainEntry envB stD ["prog", "a.py"])).steps =
      stD.steps ++ [Step.preLint, Step.docstringCheck, Step.strip,
        Step.sort, Step.fmt, Step.postLint] :=
  formatter_invalid_contained envB stD "prog" "a.py" cDoc ("F" ++ cDoc)
    ("S" ++ ("F" ++ cDoc)) "lint" "lint" rfl (by decide) rfl rfl rfl rfl rfl

/-- Witness for the C2 theorem: a concrete run in which every tool
succeeds. -/
theorem pipeline_fixed_sequence_witness :
    (process_file envW stD "a.py").isOk = true ∧
    (Res.state (process_file envW stD "a.py")).steps = stD.steps ++
      [Step.preLint, Step.docstringCheck, Step.strip, Step.sort, Step.fmt,
        Step.postLint] ∧
    (Res.state (process_file envW stD "a.py")).fs "a.py" =
      some ("B" ++ ("S" ++ ("F" ++ cDoc))) ∧
    (Res.state (process_file envW stD "a.py")).writes = stD.writes ++
      ["a.py", "a.py", "a.py"] ∧
    (Res.state (process_file envW stD "a.py")).reads = stD.reads ++
      ["a.py", "a.py", "a.py", "a.py", "a.py", "a.py"] ∧
    (Res.state (process_file envW stD "a.py")).stdin = stD.stdin :=
  pipeline_fixed_sequence envW stD "a.py" cDoc ("F" ++ cDoc)
    ("S" ++ ("F" ++ cDoc)) ("B" ++ ("S" ++ ("F" ++ cDoc))) "lint" "lint"
    rfl (by decide) rfl rfl rfl rfl rfl

/-- Witness for the C3 theorem: zero positional arguments. -/
theorem usage_error_exit_witness :
    mainEntry envW st0 [] = .exit 1 (printLine st0 usageMsg) ∧
    (printLine st0 usageMsg).reads = st0.reads ∧
    (printLine st0 usageMsg).writes = st0.writes ∧
    (printLine st0 usageMsg).fs = st0.fs :=
  usage_error_exit envW st0 [] (by decide)

/-- Witness for the C4 theorem: a path that is neither a file nor a
directory. -/
theorem invalid_target_exit_witness :
    mainEntry envW st0 ["prog", "missing"] = .exit 1 (printLine st0
      ("Error: " ++ "missing" ++ " is not a valid file or directory")) ∧
    (printLine st0
      ("Error: " ++ "missing" ++ " is not a valid file or directory")).reads
      = st0.reads ∧
    (printLine st0
      ("Error: " ++ "missing" ++ " is not a valid file or directory")).writes
      = st0.writes ∧
    (printLine st0
      ("Error: " ++ "missing" ++ " is not a valid file or directory")).fs
      = st0.fs :=
  invalid_target_exit envW st0 "prog" "missing" rfl rfl

/-- Witness for the C5 theorem: raw operator input " a " is stripped
before insertion. -/
theorem prompt_inserts_stripped_docstring_witness :
    (prompt_for_docstring stC "a.py").isOk = true ∧
    (Res.state (prompt_for_docstring stC "a.py")).fs "a.py" =
      some (tq ++ "\n" ++ pyStrip " a " ++ "\n" ++ tq ++ "\n\n" ++
        "x = 1") ∧
    (∀ q, q ≠ "a.py" →
      (Res.state (prompt_for_docstring stC "a.py")).fs q = stC.fs q) ∧
    (Res.state (prompt_for_docstring stC "a.py")).stdin = [] ∧
    (Res.state (prompt_for_docstring stC "a.py")).prompts =
      stC.prompts + 1 :=
  prompt_inserts_stripped_docstring stC "a.py" "x = 1" " a " [] rfl
    (by decide) rfl

/-- Witness for the C6 theorem: a file whose docstring is present. -/
theorem docstring_present_no_input_witness :
    (process_file envW stD "a.py").isBlocked = false ∧
    (Res.state (process_file envW stD "a.py")).stdin = stD.stdin ∧
    (Res.state (process_file envW stD "a.py")).prompts = stD.prompts ∧
    prompt_for_docstring stD "a.py" =
      .ok { stD with reads := stD.reads ++ ["a.py"] } () :=
  docstring_present_no_input envW stD "a.py" cDoc rfl (by decide)

/-- Witness for the C7 theorem: a directory with three matching files
and one non-matching file. -/
theorem directory_extension_filter_witness :
    (∀ fp ∈ pyFiles (envD.walk "d"),
      fp ∈ (Res.state (process_directory envD stDir "d")).reads) ∧
    (∀ q, q ∉ pyFiles (envD.walk "d") →
      ((Res.state (process_directory envD stDir "d")).fs q = stDir.fs q ∧
       (q ∈ (Res.state (process_directory envD stDir "d")).reads →
         q ∈ stDir.reads) ∧
       (q ∈ (Res.state (process_directory envD stDir "d")).writes →
         q ∈ stDir.writes))) :=
  directory_extension_filter envD stDir "d" (by decide)

/-- Witness for the C8 theorem: autoflake crashes on the second of three
files; the third is untouched. -/
theorem directory_halts_on_exn_witness :
    process_directory envX stX "d" = .exn (Res.state
      (process_file envX
        (Res.state (processList envX stX ["d/a.py"])) "d/b.py")) ∧
    ∀ q ∈ ["d/c.py"], q ∉ ["d/a.py"] → q ≠ "d/b.py" →
      ((Res.state (process_file envX
          (Res.state (processList envX stX ["d/a.py"])) "d/b.py")).fs q
        = stX.fs q ∧
       (q ∈ (Res.state (process_file envX
          (Res.state (processList envX stX ["d/a.py"])) "d/b.py")).reads →
        q ∈ stX.reads) ∧
       (q ∈ (Res.state (process_file envX
          (Res.state (processList envX stX ["d/a.py"])) "d/b.py")).writes →
        q ∈ stX.writes)) :=
  directory_halts_on_exn envX stX "d" "d/b.py" ["d/a.py"] ["d/c.py"]
    (by decide) (by decide) (by decide)

/-- Witness for the C9 theorem: the target file name does not end in
`.py` and is still processed. -/
theorem single_file_no_extension_filter_witness :
    mainEntry envW stT ["prog", "notes.txt"] =
      wrapRes (process_file envW stT "notes.txt") ∧
    ("Processing " ++ "notes.txt") ∈
      (MainResult.state (mainEntry envW stT ["prog", "notes.txt"])).output :=
  single_file_no_extension_filter envW stT "prog" "notes.txt" rfl

/-- Witness for the C10 theorem: a file with a triple-single-quote
docstring still triggers the prompt. -/
theorem squote_docstring_not_recognized_witness :
    (prompt_for_docstring stS "a.py").isOk = true ∧
    (Res.state (prompt_for_docstring stS "a.py")).prompts =
      stS.prompts + 1 ∧
    (Res.state (prompt_for_docstring stS "a.py")).stdin = [] ∧
    (Res.state (prompt_for_docstring stS "a.py")).fs "a.py" =
      some (tq ++ "\n" ++ pyStrip "doc" ++ "\n" ++ tq ++ "\n\n" ++
        "\x27\x27\x27d\x27\x27\x27\nx = 1") :=
  squote_docstring_not_recognized stS "a.py"
    "\x27\x27\x27d\x27\x27\x27\nx = 1" "doc" [] rfl (by decide) rfl
